import Mathlib

/-!
Verification of the docx report generator (`docx_report.cpp`) of the
Motorola Scout Rapport Tool.  The C++ code manipulates a tinyxml2 DOM;
here the DOM is shallowly embedded as a tree of elements, each carrying
a name, an attribute list, an optional direct text content (tinyxml2's
`GetText`/`SetText` view) and a list of child elements.  Filesystem and
zip effects are captured by an explicit environment of success flags.
-/

namespace DocxReport

/-- Tree of XML elements: name, attributes, optional direct text content,
and child elements.  This models the tinyxml2 node structure as used by
`docx_report.cpp` (`Name()`, attributes, `GetText`/`SetText`, element
children). -/
inductive XMLTree where
| elem (name : String) (attrs : List (String × String)) (text : Option String) (children : List XMLTree)

namespace XMLTree

def name : XMLTree → String
| .elem n _ _ _ => n

def attrs : XMLTree → List (String × String)
| .elem _ a _ _ => a

def text : XMLTree → Option String
| .elem _ _ t _ => t

def children : XMLTree → List XMLTree
| .elem _ _ _ cs => cs

@[simp] theorem name_elem (n a t cs) : (XMLTree.elem n a t cs).name = n := rfl
@[simp] theorem attrs_elem (n a t cs) : (XMLTree.elem n a t cs).attrs = a := rfl
@[simp] theorem text_elem (n a t cs) : (XMLTree.elem n a t cs).text = t := rfl
@[simp] theorem children_elem (n a t cs) : (XMLTree.elem n a t cs).children = cs := rfl

end XMLTree

/-- Model of tinyxml2 `FirstChildElement(name)`: the first child element
with the given name, if any. -/
def findChild (t : XMLTree) (n : String) : Option XMLTree :=
  t.children.find? (fun c => c.name = n)

/-- Model of tinyxml2 `XMLElement::SetAttribute` on an attribute list:
overwrite the value of an existing attribute with that key, otherwise
append the new attribute at the end. -/
def setAttrList (a : List (String × String)) (k v : String) : List (String × String) :=
  if a.any (fun p => p.1 = k) then
    a.map (fun p => if p.1 = k then (k, v) else p)
  else
    a ++ [(k, v)]

/-- Apply `SetAttribute k v` to the root element of a tree. -/
def setAttrTree (t : XMLTree) (k v : String) : XMLTree :=
  .elem t.name (setAttrList t.attrs k v) t.text t.children

/-! ### Decimal rendering of naturals (model of `std::to_string`) -/

/-- Character for one decimal digit, as in `std::to_string`. -/
def digitChar (d : Nat) : Char := Char.ofNat (48 + d)

/-- Fuel-driven decimal digit expansion; with fuel above `n` it renders
`n` in the usual most-significant-first decimal notation. -/
def natToCharsAux : Nat → Nat → List Char
| 0, _ => []
| fuel + 1, n =>
  if n < 10 then [digitChar n]
  else natToCharsAux fuel (n / 10) ++ [digitChar (n % 10)]

/-- Model of `std::to_string` on a non-negative integer. -/
def natToStr (n : Nat) : String := String.mk (natToCharsAux (n + 1) n)

/-! ### Substring search (model of `std::string::find(pat) != npos`) -/

/-- Does `pat` occur at the head of `s`? -/
def leadMatch : List Char → List Char → Bool
| [], _ => true
| _ :: _, [] => false
| p :: ps, c :: cs => p = c && leadMatch ps cs

/-- Does `pat` occur anywhere inside `s`? -/
def findSub (pat : List Char) : List Char → Bool
| [] => leadMatch pat []
| c :: cs => leadMatch pat (c :: cs) || findSub pat cs

/-- Model of `s.find(pat) != std::string::npos`. -/
def strFind (s pat : String) : Bool := findSub pat.toList s.toList

/-! ### Filename extension (model of `std::filesystem::path::extension`) -/

/-- Characters after the last path separator. -/
def fileNameChars (cs : List Char) : List Char :=
  cs.foldl (fun acc c => if c = '/' ∨ c = '\\' then [] else acc ++ [c]) []

/-- Suffix of the list starting at its last dot, if any. -/
def dotSuffix : List Char → Option (List Char)
| [] => none
| c :: cs =>
  match dotSuffix cs with
  | some s => some s
  | none => if c = '.' then some (c :: cs) else none

/-- Extension of a filename per `std::filesystem::path::extension`:
empty for dot, dot-dot and a lone leading dot, otherwise the substring
from the last dot (inclusive). -/
def extOfFileName (f : List Char) : List Char :=
  if f = ['.', '.'] then []
  else
    match dotSuffix f with
    | none => []
    | some s => if s.length = f.length then [] else s

/-- Model of `path.extension().string()` as used on entry image paths. -/
def pathExtension (p : String) : String :=
  String.mk (extOfFileName (fileNameChars p.toList))

/-! ### Token substitution (`replaceTokens` in `docx_report.cpp`)

The C++ function iterates over the element children of `node`; for each
child whose name is `"w:t"` and whose text equals `key` it sets the text
to `val`, and in every case recurses into the child.  So the check is
applied to every strict descendant element of the argument, never to the
argument itself. -/

mutual

/-- Effect of `replaceTokens` on a node that is itself subject to the
check (a strict descendant of the original argument): replace its own
text when it is a `w:t` element whose text equals `key`, and recurse
into its children. -/
def replaceAt (key val : String) : XMLTree → XMLTree
| .elem n a t cs =>
  .elem n a (if n = "w:t" ∧ t = some key then some val else t) (replaceAtList key val cs)

/-- Pointwise `replaceAt` on a list of children. -/
def replaceAtList (key val : String) : List XMLTree → List XMLTree
| [] => []
| c :: cs => replaceAt key val c :: replaceAtList key val cs

end

/-- Model of `replaceTokens(node, key, val)`: the node itself is left
untouched, each strict descendant is subject to the `w:t`-text check. -/
def replaceTokens (key val : String) (t : XMLTree) : XMLTree :=
  .elem t.name t.attrs t.text (replaceAtList key val t.children)

/-! ### Image-reference rewrite (lines 119-124 of `docx_report.cpp`)

The loop `for (auto* e2 = page->FirstChildElement(); e2; e2 =
e2->NextSiblingElement())` visits only the direct element children of
the cloned page; each child whose name contains `"a:blip"` as a
substring gets `SetAttribute("r:embed", rId)`. -/

def blipRewrite (rId : String) (t : XMLTree) : XMLTree :=
  .elem t.name t.attrs t.text
    (t.children.map (fun c => if strFind c.name "a:blip" then setAttrTree c "r:embed" rId else c))

/-- Page-break block synthesized after each entry (lines 129-135):
`<w:p><w:r><w:br w:type="page"/></w:r></w:p>`. -/
def pageBreak : XMLTree :=
  .elem "w:p" [] none [.elem "w:r" [] none [.elem "w:br" [("w:type", "page")] none []]]

/-- Model of the body-clearing loop `while (body->FirstChild())
body->DeleteChild(body->FirstChild());`. -/
def clearChildren : List XMLTree → List XMLTree
| [] => []
| _ :: cs => clearChildren cs

/-! ### Data model -/

/-- Caller-supplied report entry (`docx_report.h`). -/
structure Entry where
  header : String
  description : String
  imagePath : String
deriving DecidableEq, Repr

/-- One record of the relationship table `word/_rels/document.xml.rels`:
attributes `Id`, `Type`, `Target` of a `Relationship` element. -/
structure Rel where
  id : String
  typ : String
  target : String
deriving DecidableEq, Repr

/-- Fixed resource-kind URI used for every appended image relationship. -/
def imageRelType : String :=
  "http://schemas.openxmlformats.org/officeDocument/2006/relationships/image"

/-- Environment of the effectful steps of `generateDocx`: success or
failure of each filesystem/zip operation, and the parse results of the
two XML files extracted from the template package. -/
structure Env where
  /-- Did `unzip(templateDocx, tmp)` succeed? -/
  unzipOk : Bool
  /-- Parse result of `word/document.xml` (`none` = `LoadFile` failure). -/
  docTree : Option XMLTree
  /-- Parse result of `word/_rels/document.xml.rels` as first extracted:
  `none` models a missing/unparseable file or one without a
  `Relationships` root element. -/
  relsFile0 : Option (List Rel)
  /-- Does `fs::copy_file` succeed for the i-th entry? -/
  copyOk : Nat → Bool
  /-- Does `rels.SaveFile` succeed for the i-th entry?  The C++ code
  ignores this result. -/
  relsSaveOk : Nat → Bool
  /-- Does the final `doc.SaveFile` succeed?  Result ignored in C++. -/
  docSaveOk : Bool
  /-- Does `rezip(tmp, outputDocx)` succeed?  Result ignored in C++. -/
  rezipOk : Bool

/-- State threaded through the entry loop: body children built so far,
current on-disk parse state of the relationship file, media files copied
so far, and the running relationship counter `relId`. -/
structure LoopState where
  body : List XMLTree
  relsDisk : Option (List Rel)
  media : List String
  relId : Nat

/-- Result of processing one entry. -/
inductive StepRes where
| thrown
| nullDeref
| next (st : LoopState)

/-- Result of the whole entry loop. -/
inductive LoopRes where
| thrown
| nullDeref
| done (st : LoopState)

/-- Observable content of the generated package: body children of the
document file inside it, parse state of its relationship file, and
names of the media files copied into `word/media`. -/
structure Package where
  docBody : List XMLTree
  rels : Option (List Rel)
  media : List String

/-- Outcome of a `generateDocx` call.  `ret b out` is a normal return of
`b` with `out` the package written to the output path (if any);
`nullDeref` models a null-pointer dereference (crash / undefined
behavior); `thrown` models a C++ exception escaping the function. -/
inductive Outcome where
| ret (b : Bool) (out : Option Package)
| nullDeref
| thrown

/-- Body of the per-entry loop of `generateDocx` (lines 91-138), in the
order of the source: clone and substitute tokens, copy the image
(`fs::copy_file` throws on failure), load the relationship file (a load
failure leaves no `Relationships` root, so the subsequent
`InsertEndChild` dereferences null), append the new record, save
(result ignored: on save failure the disk keeps its old content),
rewrite `a:blip` direct children, then append the page and a page
break. -/
def stepEntry (env : Env) (tb : XMLTree) (i : Nat) (e : Entry) (st : LoopState) : StepRes :=
  let page2 := replaceTokens "\x7b\x7bDESCRIPTION\x7d\x7d" e.description
      (replaceTokens "\x7b\x7bHEADER\x7d\x7d" e.header tb)
  let ext := pathExtension e.imagePath
  let img := "image" ++ natToStr st.relId ++ ext
  if env.copyOk i = false then .thrown
  else
    match st.relsDisk with
    | none => .nullDeref
    | some rl =>
      let rId := "rId" ++ natToStr st.relId
      let newRel : Rel := ⟨rId, imageRelType, "media/" ++ img⟩
      let disk' := if env.relsSaveOk i then some (rl ++ [newRel]) else some rl
      let page3 := blipRewrite rId page2
      .next ⟨st.body ++ [page3, pageBreak], disk', st.media ++ [img], st.relId + 1⟩

/-- The `for (auto& e : entries)` loop, with `i` the index of the next
entry. -/
def runLoop (env : Env) (tb : XMLTree) : List Entry → Nat → LoopState → LoopRes
| [], _, st => .done st
| e :: es, i, st =>
  match stepEntry env tb i e st with
  | .thrown => .thrown
  | .nullDeref => .nullDeref
  | .next st' => runLoop env tb es (i + 1) st'

/-- Model of `reportgen::generateDocx` (`docx_report.cpp`, lines
58-144).  Mirrors the source: failed unzip and failed `document.xml`
parse return `false`; a missing `w:document` element crashes (the null
result of `FirstChildElement` is dereferenced); a missing `w:body`
returns `false`; an empty body crashes (`body->FirstChild()` is null
and `DeepClone` is called on it); then the body is cleared and the
entry loop runs; finally `doc.SaveFile` and `rezip` are invoked with
their results ignored and `true` is returned. -/
def generateDocx (env : Env) (entries : List Entry) : Outcome :=
  if env.unzipOk = false then .ret false none
  else
    match env.docTree with
    | none => .ret false none
    | some d =>
      match findChild d "w:document" with
      | none => .nullDeref
      | some wdoc =>
        match findChild wdoc "w:body" with
        | none => .ret false none
        | some body =>
          match body.children with
          | [] => .nullDeref
          | first :: _ =>
            let tb := first
            let cleared := clearChildren body.children
            match runLoop env tb entries 0 ⟨cleared, env.relsFile0, [], 10⟩ with
            | .thrown => .thrown
            | .nullDeref => .nullDeref
            | .done st =>
              let savedBody := if env.docSaveOk then st.body else body.children
              let pkg : Package := ⟨savedBody, st.relsDisk, st.media⟩
              .ret true (if env.rezipOk then some pkg else none)

/-! ### Spec-side descriptions of the output -/

/-- Net effect of the per-entry mutations on one cloned page: both token
substitutions followed by the image-reference rewrite with identifier
`rId<k>`. -/
def processPage (tb : XMLTree) (e : Entry) (k : Nat) : XMLTree :=
  blipRewrite ("rId" ++ natToStr k)
    (replaceTokens "\x7b\x7bDESCRIPTION\x7d\x7d" e.description
      (replaceTokens "\x7b\x7bHEADER\x7d\x7d" e.header tb))

/-- Expected body children: for each entry in order, one processed clone
of the template block immediately followed by one page break, with the
counter starting at `k`. -/
def expectedPages (tb : XMLTree) : List Entry → Nat → List XMLTree
| [], _ => []
| e :: es, k => processPage tb e k :: pageBreak :: expectedPages tb es (k + 1)

/-- Media file name generated for an entry at counter value `k`:
`"image" + to_string(k) + extension`. -/
def mediaName (k : Nat) (e : Entry) : String :=
  "image" ++ natToStr k ++ pathExtension e.imagePath

/-- Relationship record generated for an entry at counter value `k`. -/
def relRecord (k : Nat) (e : Entry) : Rel :=
  ⟨"rId" ++ natToStr k, imageRelType, "media/" ++ mediaName k e⟩

/-- Expected relationship records appended, one per entry, counter
starting at `k`. -/
def expectedRels : List Entry → Nat → List Rel
| [], _ => []
| e :: es, k => relRecord k e :: expectedRels es (k + 1)

/-- Expected media file names copied, one per entry, counter starting at
`k`. -/
def expectedMedia : List Entry → Nat → List String
| [], _ => []
| e :: es, k => mediaName k e :: expectedMedia es (k + 1)

/-! ### Paths into a tree -/

/-- Node of a tree at a path of child indices; `[]` is the root itself. -/
def getPath : List Nat → XMLTree → Option XMLTree
| [], t => some t
| i :: p, t =>
  match t.children[i]? with
  | none => none
  | some c => getPath p c

mutual

/-- Does the subtree rooted here contain (itself included) a `w:t`
element whose text equals `key`? -/
def hasTokAt (key : String) : XMLTree → Bool
| .elem n _ t cs => (n = "w:t" && t = some key) || hasTokAtList key cs

/-- Any-member version of `hasTokAt`. -/
def hasTokAtList (key : String) : List XMLTree → Bool
| [] => false
| c :: cs => hasTokAt key c || hasTokAtList key cs

end

/-- Does any strict descendant of `t` satisfy the token check? -/
def hasTokenBelow (key : String) (t : XMLTree) : Bool := hasTokAtList key t.children

/-! ### Lemmas about `replaceAt` and `getPath` -/

theorem replaceAtList_eq_map (key val : String) :
    ∀ cs : List XMLTree, replaceAtList key val cs = cs.map (replaceAt key val)
| [] => rfl
| c :: cs => by rw [replaceAtList, List.map_cons, replaceAtList_eq_map key val cs]

theorem replaceAt_elem (key val n a t cs) :
    replaceAt key val (.elem n a t cs) =
      .elem n a (if n = "w:t" ∧ t = some key then some val else t) (replaceAtList key val cs) := rfl

theorem name_replaceAt (key val : String) (t : XMLTree) :
    (replaceAt key val t).name = t.name := by cases t; rfl

theorem attrs_replaceAt (key val : String) (t : XMLTree) :
    (replaceAt key val t).attrs = t.attrs := by cases t; rfl

theorem text_replaceAt (key val : String) (t : XMLTree) :
    (replaceAt key val t).text =
      (if t.name = "w:t" ∧ t.text = some key then some val else t.text) := by cases t; rfl

theorem children_replaceAt (key val : String) (t : XMLTree) :
    (replaceAt key val t).children = t.children.map (replaceAt key val) := by
  cases t; rw [replaceAt_elem]; exact replaceAtList_eq_map key val _

theorem getPath_replaceAt (key val : String) :
    ∀ (p : List Nat) (t : XMLTree),
      getPath p (replaceAt key val t) = (getPath p t).map (replaceAt key val)
| [], _ => rfl
| i :: q, t => by
  rw [getPath, getPath, children_replaceAt, List.getElem?_map]
  cases h : t.children[i]? with
  | none => rfl
  | some c => exact getPath_replaceAt key val q c

theorem children_replaceTokens (key val : String) (t : XMLTree) :
    (replaceTokens key val t).children = t.children.map (replaceAt key val) := by
  rw [replaceTokens, XMLTree.children_elem]; exact replaceAtList_eq_map key val _

theorem getPath_cons_replaceTokens (key val : String) (i : Nat) (q : List Nat) (t : XMLTree) :
    getPath (i :: q) (replaceTokens key val t) = (getPath (i :: q) t).map (replaceAt key val) := by
  rw [getPath, getPath, children_replaceTokens, List.getElem?_map]
  cases h : t.children[i]? with
  | none => rfl
  | some c => exact getPath_replaceAt key val q c

mutual

theorem replaceAt_id (key val : String) :
    ∀ t : XMLTree, hasTokAt key t = false → replaceAt key val t = t
| .elem n a tx cs, h => by
  rw [hasTokAt, Bool.or_eq_false_iff] at h
  obtain ⟨h1, h2⟩ := h
  rw [replaceAt_elem, replaceAtList_id key val cs h2, if_neg]
  intro hc
  obtain ⟨hn, ht⟩ := hc
  rw [hn, ht] at h1
  simp at h1

theorem replaceAtList_id (key val : String) :
    ∀ cs : List XMLTree, hasTokAtList key cs = false → replaceAtList key val cs = cs
| [], _ => rfl
| c :: cs, h => by
  rw [hasTokAtList, Bool.or_eq_false_iff] at h
  rw [replaceAtList, replaceAt_id key val c h.1, replaceAtList_id key val cs h.2]

end

theorem replaceTokens_id (key val : String) (t : XMLTree) (h : hasTokenBelow key t = false) :
    replaceTokens key val t = t := by
  cases t with
  | elem n a tx cs =>
    rw [replaceTokens]
    rw [XMLTree.name_elem, XMLTree.attrs_elem, XMLTree.text_elem, XMLTree.children_elem]
    rw [replaceAtList_id key val cs h]

/-! ### Injectivity of the decimal rendering -/

/-- Numeric value of a digit character. -/
def charVal (c : Char) : Nat := c.toNat - 48

/-- Numeric value of a most-significant-first digit string. -/
def strVal (l : List Char) : Nat := l.foldl (fun a c => a * 10 + charVal c) 0

theorem charVal_digitChar : ∀ d, d < 10 → charVal (digitChar d) = d := by decide

theorem strVal_append_digit (l : List Char) (c : Char) :
    strVal (l ++ [c]) = strVal l * 10 + charVal c := by
  rw [strVal, strVal, List.foldl_append, List.foldl, List.foldl]

theorem strVal_natToCharsAux : ∀ fuel n, n < fuel → strVal (natToCharsAux fuel n) = n
| fuel + 1, n, h => by
  rw [natToCharsAux]
  by_cases h10 : n < 10
  · rw [if_pos h10]
    show strVal ([] ++ [digitChar n]) = n
    rw [strVal_append_digit, charVal_digitChar n h10]
    show 0 * 10 + n = n
    omega
  · rw [if_neg h10, strVal_append_digit,
      strVal_natToCharsAux fuel (n / 10) (by omega),
      charVal_digitChar (n % 10) (by omega)]
    omega

theorem natToStr_inj (m n : Nat) (h : natToStr m = natToStr n) : m = n := by
  have hd : natToCharsAux (m + 1) m = natToCharsAux (n + 1) n := congrArg String.data h
  have hv := congrArg strVal hd
  rwa [strVal_natToCharsAux (m + 1) m (by omega),
    strVal_natToCharsAux (n + 1) n (by omega)] at hv

theorem rId_inj (m n : Nat) (h : "rId" ++ natToStr m = "rId" ++ natToStr n) : m = n := by
  apply natToStr_inj
  have hd : "rId".data ++ (natToStr m).data = "rId".data ++ (natToStr n).data :=
    congrArg String.data h
  have hc := List.append_cancel_left hd
  have hm : String.mk (natToStr m).data = String.mk (natToStr n).data := congrArg String.mk hc
  cases hme : natToStr m
  cases hne : natToStr n
  rw [hme, hne] at hm
  exact hm

/-! ### Lemmas about the entry loop -/

theorem clearChildren_eq_nil : ∀ l : List XMLTree, clearChildren l = []
| [] => rfl
| _ :: cs => clearChildren_eq_nil cs

theorem stepEntry_ok (env : Env) (tb : XMLTree) (i : Nat) (e : Entry) (st : LoopState)
    (rl : List Rel) (hc : env.copyOk i = true) (hr : st.relsDisk = some rl) :
    stepEntry env tb i e st =
      .next ⟨st.body ++ [processPage tb e st.relId, pageBreak],
        if env.relsSaveOk i then some (rl ++ [relRecord st.relId e]) else some rl,
        st.media ++ [mediaName st.relId e], st.relId + 1⟩ := by
  rw [stepEntry, hr, hc]
  rfl

theorem runLoop_cons_next (env : Env) (tb : XMLTree) (e : Entry) (es : List Entry)
    (i : Nat) (st st' : LoopState) (h : stepEntry env tb i e st = .next st') :
    runLoop env tb (e :: es) i st = runLoop env tb es (i + 1) st' := by
  rw [runLoop, h]

theorem runLoop_ok (env : Env) (tb : XMLTree)
    (hc : ∀ i, env.copyOk i = true) (hs : ∀ i, env.relsSaveOk i = true) :
    ∀ (es : List Entry) (i : Nat) (st : LoopState) (rl : List Rel), st.relsDisk = some rl →
      runLoop env tb es i st =
        .done ⟨st.body ++ expectedPages tb es st.relId, some (rl ++ expectedRels es st.relId),
          st.media ++ expectedMedia es st.relId, st.relId + es.length⟩
| [], i, st, rl, hr => by
  obtain ⟨b, r, m, k⟩ := st
  simp only at hr
  simp [runLoop, expectedPages, expectedRels, expectedMedia, hr]
| e :: es, i, st, rl, hr => by
  have hstep := stepEntry_ok env tb i e st rl (hc i) hr
  rw [hs i, if_pos rfl] at hstep
  rw [runLoop_cons_next env tb e es i st _ hstep]
  rw [runLoop_ok env tb hc hs es (i + 1)
    ⟨st.body ++ [processPage tb e st.relId, pageBreak],
      some (rl ++ [relRecord st.relId e]),
      st.media ++ [mediaName st.relId e], st.relId + 1⟩ (rl ++ [relRecord st.relId e]) rfl]
  simp only [expectedPages, expectedRels, expectedMedia, List.append_assoc,
    List.cons_append, List.nil_append, List.length_cons]
  exact congrArg LoopRes.done (by simp [LoopState.mk.injEq]; omega)

theorem runLoop_completes (env : Env) (tb : XMLTree) (hc : ∀ i, env.copyOk i = true) :
    ∀ (es : List Entry) (i : Nat) (st : LoopState) (rl : List Rel), st.relsDisk = some rl →
      ∃ tl : List Rel, runLoop env tb es i st =
        .done ⟨st.body ++ expectedPages tb es st.relId, some (rl ++ tl),
          st.media ++ expectedMedia es st.relId, st.relId + es.length⟩
| [], i, st, rl, hr => by
  refine ⟨[], ?_⟩
  obtain ⟨b, r, m, k⟩ := st
  simp only at hr
  simp [runLoop, expectedPages, expectedMedia, hr]
| e :: es, i, st, rl, hr => by
  have hstep := stepEntry_ok env tb i e st rl (hc i) hr
  by_cases hsave : env.relsSaveOk i
  · rw [if_pos hsave] at hstep
    rw [runLoop_cons_next env tb e es i st _ hstep]
    obtain ⟨tl, htl⟩ := runLoop_completes env tb hc es (i + 1)
      ⟨st.body ++ [processPage tb e st.relId, pageBreak],
        some (rl ++ [relRecord st.relId e]),
        st.media ++ [mediaName st.relId e], st.relId + 1⟩ (rl ++ [relRecord st.relId e]) rfl
    refine ⟨relRecord st.relId e :: tl, ?_⟩
    rw [htl]
    simp only [expectedPages, expectedMedia, List.append_assoc, List.cons_append,
      List.nil_append, List.length_cons]
    exact congrArg LoopRes.done (by simp [LoopState.mk.injEq]; omega)
  · rw [if_neg hsave] at hstep
    rw [runLoop_cons_next env tb e es i st _ hstep]
    obtain ⟨tl, htl⟩ := runLoop_completes env tb hc es (i + 1)
      ⟨st.body ++ [processPage tb e st.relId, pageBreak], some rl,
        st.media ++ [mediaName st.relId e], st.relId + 1⟩ rl rfl
    refine ⟨tl, ?_⟩
    rw [htl]
    simp only [expectedPages, expectedMedia, List.append_assoc, List.cons_append,
      List.nil_append, List.length_cons]
    exact congrArg LoopRes.done (by simp [LoopState.mk.injEq]; omega)

/-- Success-path behavior of `generateDocx`: with every effectful step
succeeding, a parseable template whose body has at least one child, the
call returns `true` and writes a package whose body, relationship table
and media set are exactly the expected ones. -/
theorem generateDocx_ok (env : Env) (entries : List Entry) (d wdoc b tb : XMLTree)
    (rest : List XMLTree) (rl0 : List Rel)
    (h1 : env.unzipOk = true) (h2 : env.docTree = some d)
    (h3 : findChild d "w:document" = some wdoc) (h4 : findChild wdoc "w:body" = some b)
    (h5 : b.children = tb :: rest) (h6 : ∀ i, env.copyOk i = true)
    (h7 : env.relsFile0 = some rl0) (h8 : ∀ i, env.relsSaveOk i = true)
    (h9 : env.docSaveOk = true) (h10 : env.rezipOk = true) :
    generateDocx env entries =
      .ret true (some ⟨expectedPages tb entries 10, some (rl0 ++ expectedRels entries 10),
        expectedMedia entries 10⟩) := by
  simp only [generateDocx, h1, h2, h3, h4, h5, h7, clearChildren_eq_nil,
    Bool.true_eq_false, if_false]
  rw [runLoop_ok env tb h6 h8 entries 0 ⟨[], some rl0, [], 10⟩ rl0 rfl]
  simp [h9, h10]

/-! ### Concrete fixtures used by witnesses and counterexamples -/

/-- Template block of the spec's concrete scenario: one paragraph with a
header token leaf, a description token leaf and a nested drawing
reference. -/
def sampleBlock : XMLTree :=
  .elem "w:p" [] none
    [.elem "w:r" [] none [.elem "w:t" [] (some "\x7b\x7bHEADER\x7d\x7d") []],
     .elem "w:r" [] none [.elem "w:t" [] (some "\x7b\x7bDESCRIPTION\x7d\x7d") []],
     .elem "w:r" [] none
       [.elem "w:drawing" [] none [.elem "a:blip" [("r:embed", "rId5")] none []]]]

/-- Parsed `word/document.xml` of the sample template. -/
def sampleDoc : XMLTree :=
  .elem "" [] none [.elem "w:document" [] none [.elem "w:body" [] none [sampleBlock]]]

/-- Pre-existing relationship records of the sample template. -/
def sampleRels0 : List Rel := [⟨"rId1", "t1", "styles.xml"⟩]

/-- Environment in which every effectful step succeeds. -/
def allOkEnv : Env :=
  ⟨true, some sampleDoc, some sampleRels0, fun _ => true, fun _ => true, true, true⟩

def entryA : Entry := ⟨"A", "d1", "a.png"⟩

def entryB : Entry := ⟨"B", "d2", "b.jpg"⟩

/-- Template document whose `w:body` element exists but has zero
children. -/
def emptyBodyDoc : XMLTree :=
  .elem "" [] none [.elem "w:document" [] none [.elem "w:body" [] none []]]

/-- All-success environment for the empty-body template. -/
def emptyBodyEnv : Env :=
  ⟨true, some emptyBodyDoc, some sampleRels0, fun _ => true, fun _ => true, true, true⟩

/-- Environment in which everything succeeds except the final `rezip`. -/
def norezipEnv : Env :=
  ⟨true, some sampleDoc, some sampleRels0, fun _ => true, fun _ => true, true, false⟩

/-- Environment whose template relationship file already contains a
record with identifier `rId10`. -/
def dupRelsEnv : Env :=
  ⟨true, some sampleDoc, some [⟨"rId10", imageRelType, "media/old.png"⟩],
    fun _ => true, fun _ => true, true, true⟩

/-- Template block with two direct `a:blip` children and one `a:blip`
nested one level deeper. -/
def blipBlock : XMLTree :=
  .elem "w:p" [] none
    [.elem "a:blip" [("r:embed", "rId1")] none [],
     .elem "a:blip" [("r:embed", "rId2")] none [],
     .elem "w:r" [] none [.elem "a:blip" [("r:embed", "rId3")] none []]]

/-- Parsed document whose template block is `blipBlock`. -/
def blipDoc : XMLTree :=
  .elem "" [] none [.elem "w:document" [] none [.elem "w:body" [] none [blipBlock]]]

/-- All-success environment for the `blipBlock` template. -/
def blipEnv : Env :=
  ⟨true, some blipDoc, some sampleRels0, fun _ => true, fun _ => true, true, true⟩

/-- Body children of a successfully written package, if any. -/
def outcomeBody : Outcome → Option (List XMLTree)
| .ret _ (some pkg) => some pkg.docBody
| _ => none

/-- Identifiers of the relationship table of a successfully written
package, if any. -/
def outcomeRelIds : Outcome → Option (List String)
| .ret _ (some pkg) => pkg.rels.map (List.map Rel.id)
| _ => none

/-! ### Index lemmas for the expected output -/

theorem expectedRels_getElem? :
    ∀ (es : List Entry) (k i : Nat), (expectedRels es k)[i]? = es[i]?.map (fun e => relRecord (k + i) e)
| [], k, i => by simp [expectedRels]
| e :: es, k, 0 => by simp [expectedRels]
| e :: es, k, i + 1 => by
  simp only [expectedRels, List.getElem?_cons_succ]
  rw [expectedRels_getElem? es (k + 1) i]
  have h : k + 1 + i = k + (i + 1) := by omega
  rw [h]

theorem expectedMedia_getElem? :
    ∀ (es : List Entry) (k i : Nat), (expectedMedia es k)[i]? = es[i]?.map (fun e => mediaName (k + i) e)
| [], k, i => by simp [expectedMedia]
| e :: es, k, 0 => by simp [expectedMedia]
| e :: es, k, i + 1 => by
  simp only [expectedMedia, List.getElem?_cons_succ]
  rw [expectedMedia_getElem? es (k + 1) i]
  have h : k + 1 + i = k + (i + 1) := by omega
  rw [h]

theorem expectedPages_getElem?_even (tb : XMLTree) :
    ∀ (es : List Entry) (k i : Nat),
      (expectedPages tb es k)[2 * i]? = es[i]?.map (fun e => processPage tb e (k + i))
| [], k, i => by simp [expectedPages]
| e :: es, k, 0 => by simp [expectedPages]
| e :: es, k, i + 1 => by
  have h2 : 2 * (i + 1) = 2 * i + 1 + 1 := by omega
  rw [h2]
  simp only [expectedPages, List.getElem?_cons_succ]
  rw [expectedPages_getElem?_even tb es (k + 1) i]
  have h : k + 1 + i = k + (i + 1) := by omega
  rw [h]

theorem expectedPages_getElem?_odd (tb : XMLTree) :
    ∀ (es : List Entry) (k i : Nat),
      (expectedPages tb es k)[2 * i + 1]? = es[i]?.map (fun _ => pageBreak)
| [], k, i => by simp [expectedPages]
| e :: es, k, 0 => by simp [expectedPages]
| e :: es, k, i + 1 => by
  have h2 : 2 * (i + 1) + 1 = 2 * i + 1 + 1 + 1 := by omega
  rw [h2]
  simp only [expectedPages, List.getElem?_cons_succ]
  rw [expectedPages_getElem?_odd tb es (k + 1) i]

theorem expectedPages_length (tb : XMLTree) :
    ∀ (es : List Entry) (k : Nat), (expectedPages tb es k).length = 2 * es.length
| [], _ => rfl
| e :: es, k => by
  simp only [expectedPages, List.length_cons, expectedPages_length tb es (k + 1)]
  omega

/-! ### Claim theorems -/

/-- Claim C1: for every entry list and every template whose body has at
least one child, after a fully successful `generateDocx` run the written
body consists, for each entry in input order, of exactly one substituted
clone of the captured template block immediately followed by exactly one
page-break block and no other blocks (`expectedPages` is exactly that
interleaving); the pre-existing body children never appear in the output
because the body-clearing loop removes them all before the first entry
is processed. -/
theorem C1_body_blocks_in_order (env : Env) (entries : List Entry) (d wdoc b tb : XMLTree)
    (rest : List XMLTree) (rl0 : List Rel)
    (h1 : env.unzipOk = true) (h2 : env.docTree = some d)
    (h3 : findChild d "w:document" = some wdoc) (h4 : findChild wdoc "w:body" = some b)
    (h5 : b.children = tb :: rest) (h6 : ∀ i, env.copyOk i = true)
    (h7 : env.relsFile0 = some rl0) (h8 : ∀ i, env.relsSaveOk i = true)
    (h9 : env.docSaveOk = true) (h10 : env.rezipOk = true) :
    ∃ pkg, generateDocx env entries = .ret true (some pkg) ∧
      pkg.docBody = expectedPages tb entries 10 ∧ clearChildren b.children = [] :=
  ⟨_, generateDocx_ok env entries d wdoc b tb rest rl0 h1 h2 h3 h4 h5 h6 h7 h8 h9 h10,
    rfl, clearChildren_eq_nil _⟩

/-- Witness for C1 at the spec's concrete two-entry scenario. -/
theorem C1_witness :
    ∃ pkg, generateDocx allOkEnv [entryA, entryB] = .ret true (some pkg) ∧
      pkg.docBody = expectedPages sampleBlock [entryA, entryB] 10 ∧
      clearChildren (XMLTree.elem "w:body" [] none [sampleBlock]).children = [] :=
  C1_body_blocks_in_order allOkEnv [entryA, entryB] sampleDoc
    (.elem "w:document" [] none [.elem "w:body" [] none [sampleBlock]])
    (.elem "w:body" [] none [sampleBlock]) sampleBlock [] sampleRels0
    rfl rfl rfl rfl rfl (fun _ => rfl) rfl (fun _ => rfl) rfl rfl

/-- Claim C2: in a fully successful run the i-th entry (0-based) is
assigned counter value `10 + i`: the media directory receives exactly
the files `image<10+i><ext(i)>` and the relationship file receives
exactly the appended records `relRecord (10+i)` (identifier
`rId<10+i>`, the fixed image relationship type URI, target
`media/image<10+i><ext(i)>`), in entry order after the pre-existing
records. -/
theorem C2_counter_media_rels (env : Env) (entries : List Entry) (d wdoc b tb : XMLTree)
    (rest : List XMLTree) (rl0 : List Rel)
    (h1 : env.unzipOk = true) (h2 : env.docTree = some d)
    (h3 : findChild d "w:document" = some wdoc) (h4 : findChild wdoc "w:body" = some b)
    (h5 : b.children = tb :: rest) (h6 : ∀ i, env.copyOk i = true)
    (h7 : env.relsFile0 = some rl0) (h8 : ∀ i, env.relsSaveOk i = true)
    (h9 : env.docSaveOk = true) (h10 : env.rezipOk = true) :
    ∃ pkg, generateDocx env entries = .ret true (some pkg) ∧
      pkg.media = expectedMedia entries 10 ∧
      pkg.rels = some (rl0 ++ expectedRels entries 10) ∧
      (∀ i, (expectedMedia entries 10)[i]? = entries[i]?.map (fun e => mediaName (10 + i) e)) ∧
      (∀ i, (expectedRels entries 10)[i]? = entries[i]?.map (fun e => relRecord (10 + i) e)) :=
  ⟨_, generateDocx_ok env entries d wdoc b tb rest rl0 h1 h2 h3 h4 h5 h6 h7 h8 h9 h10,
    rfl, rfl, fun i => expectedMedia_getElem? entries 10 i,
    fun i => expectedRels_getElem? entries 10 i⟩

/-- Witness for C2 at the concrete two-entry scenario. -/
theorem C2_witness :
    ∃ pkg, generateDocx allOkEnv [entryA, entryB] = .ret true (some pkg) ∧
      pkg.media = expectedMedia [entryA, entryB] 10 ∧
      pkg.rels = some (sampleRels0 ++ expectedRels [entryA, entryB] 10) ∧
      (∀ i, (expectedMedia [entryA, entryB] 10)[i]? =
        [entryA, entryB][i]?.map (fun e => mediaName (10 + i) e)) ∧
      (∀ i, (expectedRels [entryA, entryB] 10)[i]? =
        [entryA, entryB][i]?.map (fun e => relRecord (10 + i) e)) :=
  C2_counter_media_rels allOkEnv [entryA, entryB] sampleDoc
    (.elem "w:document" [] none [.elem "w:body" [] none [sampleBlock]])
    (.elem "w:body" [] none [sampleBlock]) sampleBlock [] sampleRels0
    rfl rfl rfl rfl rfl (fun _ => rfl) rfl (fun _ => rfl) rfl rfl

/-- Claim C4 (code bug): a template whose `w:body` element exists but
has zero children does not make `generateDocx` return `false`: line 84
evaluates `body->FirstChild()->DeepClone(&doc)` with `FirstChild()`
null, a null-pointer dereference, so the model yields the crash outcome
and in particular not the claimed `ret false` with no output. -/
theorem C4_empty_body_crash :
    generateDocx emptyBodyEnv [entryA] = Outcome.nullDeref ∧
      Outcome.nullDeref ≠ Outcome.ret false none :=
  ⟨rfl, fun h => Outcome.noConfusion h⟩

/-- Claim C5 (counterexample): with every step succeeding except the
final repackaging, `generateDocx` still returns `true` (the result of
`rezip` is ignored on line 141), and no output file exists; the claim
that any component failure yields `false` is therefore violated. -/
theorem C5_counterexample : generateDocx norezipEnv [entryA] = Outcome.ret true none := rfl

/-- Claim C6 (counterexample): when the template's relationship file
already contains a record with identifier `rId10`, the run appends a
second `rId10` record, so the generated identifier is not unique in the
output table. -/
theorem C6_counterexample :
    outcomeRelIds (generateDocx dupRelsEnv [entryA]) = some ["rId10", "rId10"] ∧
      ¬ (["rId10", "rId10"] : List String).Nodup :=
  ⟨rfl, by decide⟩

/-- Claim C3 (counterexample): with a template block having two direct
`a:blip` children (original references `rId1`, `rId2`) and one `a:blip`
nested inside a `w:r` child (reference `rId3`), the generated page has
BOTH direct children rewritten to `rId10` (the claim says only the
first match is rewritten) while the nested reference is left at `rId3`
(the claim says the node is located anywhere in the clone's subtree). -/
theorem C3_counterexample :
    ((outcomeBody (generateDocx blipEnv [entryA])).bind (fun l => l[0]?)).bind (getPath [1]) =
      some (.elem "a:blip" [("r:embed", "rId10")] none []) ∧
    ((outcomeBody (generateDocx blipEnv [entryA])).bind (fun l => l[0]?)).bind (getPath [2, 0]) =
      some (.elem "a:blip" [("r:embed", "rId3")] none []) ∧
    ("rId10" : String) ≠ "rId2" ∧ ("rId3" : String) ≠ "rId10" :=
  ⟨rfl, rfl, by decide, by decide⟩

/-- Claim C8: clone independence of the stamping. In a fully successful
run every generated page is `processPage tb e (10+i)` for the SAME
originally captured template block `tb` — no page is derived from a
previously mutated clone, and the captured block (a value in this
embedding, matching tinyxml2's deep, structurally independent
`DeepClone` copies) is never itself modified, so it still carries its
original token text after all entries are processed. -/
theorem C8_clone_independence (env : Env) (entries : List Entry) (d wdoc b tb : XMLTree)
    (rest : List XMLTree) (rl0 : List Rel)
    (h1 : env.unzipOk = true) (h2 : env.docTree = some d)
    (h3 : findChild d "w:document" = some wdoc) (h4 : findChild wdoc "w:body" = some b)
    (h5 : b.children = tb :: rest) (h6 : ∀ i, env.copyOk i = true)
    (h7 : env.relsFile0 = some rl0) (h8 : ∀ i, env.relsSaveOk i = true)
    (h9 : env.docSaveOk = true) (h10 : env.rezipOk = true) :
    ∃ pkg, generateDocx env entries = .ret true (some pkg) ∧
      pkg.docBody.length = 2 * entries.length ∧
      (∀ i, pkg.docBody[2 * i]? = entries[i]?.map (fun e => processPage tb e (10 + i))) ∧
      (∀ i, pkg.docBody[2 * i + 1]? = entries[i]?.map (fun _ => pageBreak)) :=
  ⟨_, generateDocx_ok env entries d wdoc b tb rest rl0 h1 h2 h3 h4 h5 h6 h7 h8 h9 h10,
    expectedPages_length tb entries 10,
    fun i => expectedPages_getElem?_even tb entries 10 i,
    fun i => expectedPages_getElem?_odd tb entries 10 i⟩

/-- Witness for C8 at the concrete two-entry scenario. -/
theorem C8_witness :
    ∃ pkg, generateDocx allOkEnv [entryA, entryB] = .ret true (some pkg) ∧
      pkg.docBody.length = 2 * ([entryA, entryB] : List Entry).length ∧
      (∀ i, pkg.docBody[2 * i]? =
        [entryA, entryB][i]?.map (fun e => processPage sampleBlock e (10 + i))) ∧
      (∀ i, pkg.docBody[2 * i + 1]? = [entryA, entryB][i]?.map (fun _ => pageBreak)) :=
  C8_clone_independence allOkEnv [entryA, entryB] sampleDoc
    (.elem "w:document" [] none [.elem "w:body" [] none [sampleBlock]])
    (.elem "w:body" [] none [sampleBlock]) sampleBlock [] sampleRels0
    rfl rfl rfl rfl rfl (fun _ => rfl) rfl (fun _ => rfl) rfl rfl

/-- Claim C9: each per-entry relationship update is strictly
append-only: every record present before the update is still present,
unmodified and at its original position (the old table is a prefix of
the new one), and the only possible addition is the single new record
for this entry (none when the save failed, in which case the file keeps
its old content). -/
theorem C9_rels_append_only (env : Env) (tb : XMLTree) (i : Nat) (e : Entry)
    (st st' : LoopState) (rl : List Rel)
    (h : stepEntry env tb i e st = .next st') (hr : st.relsDisk = some rl) :
    ∃ tl, st'.relsDisk = some (rl ++ tl) ∧ (tl = [] ∨ tl = [relRecord st.relId e]) := by
  by_cases hc : env.copyOk i = true
  · rw [stepEntry_ok env tb i e st rl hc hr] at h
    injection h with h'
    subst h'
    by_cases hs : env.relsSaveOk i
    · exact ⟨[relRecord st.relId e], by simp [hs], Or.inr rfl⟩
    · exact ⟨[], by simp [hs], Or.inl rfl⟩
  · have hcf : env.copyOk i = false := by revert hc; cases env.copyOk i <;> simp
    rw [stepEntry, hcf] at h
    simp at h

/-- State produced by one successful step on the sample fixture. -/
def stepStateA : LoopState :=
  ⟨[processPage sampleBlock entryA 10, pageBreak], some (sampleRels0 ++ [relRecord 10 entryA]),
    [mediaName 10 entryA], 11⟩

/-- Witness for C9: one concrete per-entry update appends exactly the
new record after the pre-existing table. -/
theorem C9_witness :
    ∃ tl, stepStateA.relsDisk = some (sampleRels0 ++ tl) ∧
      (tl = [] ∨ tl = [relRecord 10 entryA]) :=
  C9_rels_append_only allOkEnv sampleBlock 0 entryA ⟨[], some sampleRels0, [], 10⟩ stepStateA
    sampleRels0 rfl rfl

theorem stepEntry_thrown (env : Env) (tb : XMLTree) (i : Nat) (e : Entry) (st : LoopState)
    (hc : env.copyOk i = false) : stepEntry env tb i e st = .thrown := by
  rw [stepEntry, hc]
  rfl

theorem stepEntry_nullDeref (env : Env) (tb : XMLTree) (i : Nat) (e : Entry) (st : LoopState)
    (hc : env.copyOk i = true) (hr : st.relsDisk = none) : stepEntry env tb i e st = .nullDeref := by
  rw [stepEntry, hc, hr]
  rfl

theorem runLoop_cons_thrown (env : Env) (tb : XMLTree) (e : Entry) (es : List Entry)
    (i : Nat) (st : LoopState) (h : stepEntry env tb i e st = .thrown) :
    runLoop env tb (e :: es) i st = .thrown := by
  rw [runLoop, h]

theorem runLoop_cons_nullDeref (env : Env) (tb : XMLTree) (e : Entry) (es : List Entry)
    (i : Nat) (st : LoopState) (h : stepEntry env tb i e st = .nullDeref) :
    runLoop env tb (e :: es) i st = .nullDeref := by
  rw [runLoop, h]

/-- Claim C5 (amended): `generateDocx` returns `false` exactly for the
three early failures — extraction, `document.xml` parse, missing
`w:body`.  Once the template block is captured, an image-copy failure
escapes as a C++ exception and a relationship-file load failure is a
null dereference (not a `false` return); and when every image copy and
relationship load succeeds the function returns `true` regardless of
whether the relationship saves, the document save or the repackaging
succeeded (their results are ignored).  An output file is written iff
repackaging runs and succeeds, and if the document save failed that
output still contains the template's original, unmodified body. -/
theorem C5_return_value_characterization :
    (∀ env entries, env.unzipOk = false → generateDocx env entries = .ret false none) ∧
    (∀ env entries, env.unzipOk = true → env.docTree = none →
      generateDocx env entries = .ret false none) ∧
    (∀ env entries d wdoc, env.unzipOk = true → env.docTree = some d →
      findChild d "w:document" = some wdoc → findChild wdoc "w:body" = none →
      generateDocx env entries = .ret false none) ∧
    (∀ env e es d wdoc b tb rest, env.unzipOk = true → env.docTree = some d →
      findChild d "w:document" = some wdoc → findChild wdoc "w:body" = some b →
      b.children = tb :: rest → env.copyOk 0 = false →
      generateDocx env (e :: es) = .thrown) ∧
    (∀ env e es d wdoc b tb rest, env.unzipOk = true → env.docTree = some d →
      findChild d "w:document" = some wdoc → findChild wdoc "w:body" = some b →
      b.children = tb :: rest → env.copyOk 0 = true → env.relsFile0 = none →
      generateDocx env (e :: es) = .nullDeref) ∧
    (∀ env entries d wdoc b tb rest rl0, env.unzipOk = true → env.docTree = some d →
      findChild d "w:document" = some wdoc → findChild wdoc "w:body" = some b →
      b.children = tb :: rest → (∀ i, env.copyOk i = true) → env.relsFile0 = some rl0 →
      ∃ out, generateDocx env entries = .ret true out ∧
        (out = none ↔ env.rezipOk = false) ∧
        (∀ pkg, out = some pkg →
          pkg.docBody = (if env.docSaveOk then expectedPages tb entries 10 else b.children))) := by
  refine ⟨?_, ?_, ?_, ?_, ?_, ?_⟩
  · intro env entries h
    rw [generateDocx, h]
    rfl
  · intro env entries h1 h2
    rw [generateDocx, h1, h2]
    rfl
  · intro env entries d wdoc h1 h2 h3 h4
    simp [generateDocx, h1, h2, h3, h4]
  · intro env e es d wdoc b tb rest h1 h2 h3 h4 h5 hc
    simp only [generateDocx, h1, h2, h3, h4, h5, Bool.true_eq_false, if_false]
    rw [runLoop_cons_thrown env tb e es 0 _ (stepEntry_thrown env tb 0 e _ hc)]
  · intro env e es d wdoc b tb rest h1 h2 h3 h4 h5 hc hr
    simp only [generateDocx, h1, h2, h3, h4, h5, Bool.true_eq_false, if_false]
    rw [runLoop_cons_nullDeref env tb e es 0 _ (stepEntry_nullDeref env tb 0 e _ hc (by rw [hr]))]
  · intro env entries d wdoc b tb rest rl0 h1 h2 h3 h4 h5 hc h7
    simp only [generateDocx, h1, h2, h3, h4, h5, Bool.true_eq_false, if_false,
      clearChildren_eq_nil]
    obtain ⟨tl, htl⟩ := runLoop_completes env tb hc entries 0 ⟨[], env.relsFile0, [], 10⟩ rl0 h7
    rw [htl]
    refine ⟨_, rfl, ?_, ?_⟩
    · cases hz : env.rezipOk <;> simp
    · intro pkg hpkg
      cases hz : env.rezipOk with
      | false => rw [hz] at hpkg; simp at hpkg
      | true =>
        rw [hz] at hpkg
        simp only [if_true] at hpkg
        injection hpkg with hpkg'
        rw [← hpkg']
        cases hd : env.docSaveOk <;> simp [hd]

/-- Witness for the amended C5: with everything succeeding except the
final repackaging, the call still returns `true` and writes nothing. -/
theorem C5_amended_witness :
    ∃ out, generateDocx norezipEnv [entryA] = .ret true out ∧
      (out = none ↔ norezipEnv.rezipOk = false) ∧
      (∀ pkg, out = some pkg →
        pkg.docBody = (if norezipEnv.docSaveOk then expectedPages sampleBlock [entryA] 10
          else (XMLTree.elem "w:body" [] none [sampleBlock]).children)) :=
  C5_return_value_characterization.2.2.2.2.2 norezipEnv [entryA] sampleDoc
    (.elem "w:document" [] none [.elem "w:body" [] none [sampleBlock]])
    (.elem "w:body" [] none [sampleBlock]) sampleBlock [] sampleRels0
    rfl rfl rfl rfl rfl (fun _ => rfl) rfl

theorem expectedRels_map_id :
    ∀ (es : List Entry) (k : Nat),
      (expectedRels es k).map Rel.id =
        (List.range es.length).map (fun i => "rId" ++ natToStr (k + i))
| [], _ => rfl
| e :: es, k => by
  have hrec := expectedRels_map_id es (k + 1)
  simp only [expectedRels, relRecord, List.map_cons, List.length_cons,
    List.range_succ_eq_map, List.map_map, hrec]
  congr 1
  apply List.map_congr_left
  intro i _
  have h : k + 1 + i = k + (i + 1) := by omega
  simp [Function.comp, h]

theorem genId_injective : Function.Injective (fun i : Nat => "rId" ++ natToStr (10 + i)) :=
  fun i j h => by
    have := rId_inj (10 + i) (10 + j) h
    omega

/-- Claim C6 (amended): the identifiers generated within one run are
pairwise distinct and strictly increase by 1 per entry starting at 10
(`rId<10+i>` for the i-th entry), but the code performs no collision
check against the template's pre-existing records, so uniqueness across
the whole output table holds only under the extra assumption that no
pre-existing record carries an identifier of the form `rId<10+j>` with
`j` below the number of entries; under that assumption every generated
identifier occurs exactly once in the output table. -/
theorem C6_generated_ids (env : Env) (entries : List Entry) (d wdoc b tb : XMLTree)
    (rest : List XMLTree) (rl0 : List Rel)
    (h1 : env.unzipOk = true) (h2 : env.docTree = some d)
    (h3 : findChild d "w:document" = some wdoc) (h4 : findChild wdoc "w:body" = some b)
    (h5 : b.children = tb :: rest) (h6 : ∀ i, env.copyOk i = true)
    (h7 : env.relsFile0 = some rl0) (h8 : ∀ i, env.relsSaveOk i = true)
    (h9 : env.docSaveOk = true) (h10 : env.rezipOk = true)
    (hno : ∀ r ∈ rl0, ∀ j < entries.length, r.id ≠ "rId" ++ natToStr (10 + j)) :
    ∃ pkg, generateDocx env entries = .ret true (some pkg) ∧
      pkg.rels = some (rl0 ++ expectedRels entries 10) ∧
      (expectedRels entries 10).map Rel.id =
        (List.range entries.length).map (fun i => "rId" ++ natToStr (10 + i)) ∧
      ((expectedRels entries 10).map Rel.id).Nodup ∧
      (∀ i < entries.length,
        ((rl0 ++ expectedRels entries 10).map Rel.id).count ("rId" ++ natToStr (10 + i)) = 1) := by
  refine ⟨_, generateDocx_ok env entries d wdoc b tb rest rl0 h1 h2 h3 h4 h5 h6 h7 h8 h9 h10,
    rfl, expectedRels_map_id entries 10, ?_, ?_⟩
  · rw [expectedRels_map_id]
    exact (List.nodup_range _).map genId_injective
  · intro i hi
    rw [List.map_append, List.count_append]
    have hz : (rl0.map Rel.id).count ("rId" ++ natToStr (10 + i)) = 0 := by
      rw [List.count_eq_zero]
      intro hmem
      obtain ⟨r, hr, hid⟩ := List.mem_map.mp hmem
      exact hno r hr i hi hid
    rw [hz, Nat.zero_add, expectedRels_map_id]
    exact List.count_eq_one_of_mem ((List.nodup_range _).map genId_injective)
      (List.mem_map.mpr ⟨i, List.mem_range.mpr hi, rfl⟩)

/-- Witness for the amended C6 on the two-entry scenario whose template
table holds only `rId1`. -/
theorem C6_amended_witness :
    ∃ pkg, generateDocx allOkEnv [entryA, entryB] = .ret true (some pkg) ∧
      pkg.rels = some (sampleRels0 ++ expectedRels [entryA, entryB] 10) ∧
      (expectedRels [entryA, entryB] 10).map Rel.id =
        (List.range ([entryA, entryB] : List Entry).length).map
          (fun i => "rId" ++ natToStr (10 + i)) ∧
      ((expectedRels [entryA, entryB] 10).map Rel.id).Nodup ∧
      (∀ i < ([entryA, entryB] : List Entry).length,
        ((sampleRels0 ++ expectedRels [entryA, entryB] 10).map Rel.id).count
          ("rId" ++ natToStr (10 + i)) = 1) :=
  C6_generated_ids allOkEnv [entryA, entryB] sampleDoc
    (.elem "w:document" [] none [.elem "w:body" [] none [sampleBlock]])
    (.elem "w:body" [] none [sampleBlock]) sampleBlock [] sampleRels0
    rfl rfl rfl rfl rfl (fun _ => rfl) rfl (fun _ => rfl) rfl rfl (by decide)

/-! ### Correctness of the substring scan -/

theorem leadMatch_iff : ∀ pat s : List Char, leadMatch pat s = true ↔ ∃ r, pat ++ r = s
| [], s => by simp [leadMatch]
| p :: ps, [] => by simp [leadMatch]
| p :: ps, c :: cs => by
  simp only [leadMatch, Bool.and_eq_true, decide_eq_true_eq, leadMatch_iff ps cs,
    List.cons_append, List.cons.injEq]
  constructor
  · rintro ⟨rfl, r, rfl⟩
    exact ⟨r, rfl, rfl⟩
  · rintro ⟨r, h1, h2⟩
    exact ⟨h1, r, h2⟩

theorem findSub_iff : ∀ pat s : List Char, findSub pat s = true ↔ ∃ l r, l ++ pat ++ r = s
| pat, [] => by
  rw [findSub, leadMatch_iff]
  constructor
  · rintro ⟨r, h⟩
    exact ⟨[], r, by simpa using h⟩
  · rintro ⟨l, r, h⟩
    rw [List.append_assoc, List.append_eq_nil] at h
    exact ⟨r, by simp [h.1, h.2]⟩
| pat, c :: cs => by
  rw [findSub, Bool.or_eq_true, leadMatch_iff, findSub_iff pat cs]
  constructor
  · rintro (⟨r, h⟩ | ⟨l, r, h⟩)
    · exact ⟨[], r, by simpa using h⟩
    · exact ⟨c :: l, r, by rw [List.cons_append, List.cons_append, h]⟩
  · rintro ⟨l, r, h⟩
    cases l with
    | nil => exact Or.inl ⟨r, by simpa using h⟩
    | cons x l' =>
      rw [List.cons_append, List.cons_append] at h
      injection h with h1 h2
      exact Or.inr ⟨l', r, h2⟩

theorem strFind_iff (s pat : String) :
    strFind s pat = true ↔ ∃ l r, l ++ pat.toList ++ r = s.toList :=
  findSub_iff pat.toList s.toList

/-- Pointwise description of the image-reference rewrite on a child
list. -/
theorem blipRewrite_forall2 (rId : String) :
    ∀ cs : List XMLTree,
      List.Forall₂ (fun c c' =>
        c'.name = c.name ∧ c'.text = c.text ∧ c'.children = c.children ∧
        ((∃ l r, l ++ "a:blip".toList ++ r = c.name.toList) →
          c'.attrs = setAttrList c.attrs "r:embed" rId) ∧
        ((¬ ∃ l r, l ++ "a:blip".toList ++ r = c.name.toList) → c' = c))
        cs (cs.map (fun c => if strFind c.name "a:blip" then setAttrTree c "r:embed" rId else c))
| [] => List.Forall₂.nil
| c :: cs => by
  rw [List.map_cons]
  refine List.Forall₂.cons ?_ (blipRewrite_forall2 rId cs)
  by_cases hb : strFind c.name "a:blip" = true
  · rw [if_pos hb]
    exact ⟨by cases c; rfl, by cases c; rfl, by cases c; rfl, fun _ => by cases c; rfl,
      fun hn => absurd ((strFind_iff _ _).mp hb) hn⟩
  · rw [if_neg hb]
    exact ⟨rfl, rfl, rfl, fun hex => absurd ((strFind_iff _ _).mpr hex) hb, fun _ => rfl⟩

/-- Claim C3 (amended): the per-entry image-reference rewrite examines
only the DIRECT element children of the cloned block, not the whole
subtree; it sets the `r:embed` attribute on EVERY direct child whose
name contains `a:blip` as a substring (not only the first match) and
leaves every other direct child, and everything deeper in the tree,
untouched.  In particular references nested below one extra level —
the normal WordprocessingML layout — are never rewritten. -/
theorem C3_blip_rewrite_scope (rId : String) (tb : XMLTree) :
    (blipRewrite rId tb).name = tb.name ∧ (blipRewrite rId tb).attrs = tb.attrs ∧
    (blipRewrite rId tb).text = tb.text ∧
    List.Forall₂ (fun c c' =>
      c'.name = c.name ∧ c'.text = c.text ∧ c'.children = c.children ∧
      ((∃ l r, l ++ "a:blip".toList ++ r = c.name.toList) →
        c'.attrs = setAttrList c.attrs "r:embed" rId) ∧
      ((¬ ∃ l r, l ++ "a:blip".toList ++ r = c.name.toList) → c' = c))
      tb.children (blipRewrite rId tb).children :=
  ⟨rfl, rfl, rfl, blipRewrite_forall2 rId tb.children⟩

/-- Witness for the amended C3 on the block with two direct and one
nested `a:blip`. -/
theorem C3_amended_witness :
    (blipRewrite "rId10" blipBlock).name = blipBlock.name ∧
    (blipRewrite "rId10" blipBlock).attrs = blipBlock.attrs ∧
    (blipRewrite "rId10" blipBlock).text = blipBlock.text ∧
    List.Forall₂ (fun c c' =>
      c'.name = c.name ∧ c'.text = c.text ∧ c'.children = c.children ∧
      ((∃ l r, l ++ "a:blip".toList ++ r = c.name.toList) →
        c'.attrs = setAttrList c.attrs "r:embed" "rId10") ∧
      ((¬ ∃ l r, l ++ "a:blip".toList ++ r = c.name.toList) → c' = c))
      blipBlock.children (blipRewrite "rId10" blipBlock).children :=
  C3_blip_rewrite_scope "rId10" blipBlock

/-! ### Occurrence bridge for token substitution -/

theorem hasTokAtList_iff_mem (key : String) :
    ∀ cs : List XMLTree,
      hasTokAtList key cs = true ↔
        ∃ (i : Nat) (c0 : XMLTree), cs[i]? = some c0 ∧ hasTokAt key c0 = true
| [] => by simp [hasTokAtList]
| c :: cs => by
  rw [hasTokAtList, Bool.or_eq_true, hasTokAtList_iff_mem key cs]
  constructor
  · rintro (h | ⟨i, c0, hg, hh⟩)
    · exact ⟨0, c, by simp, h⟩
    · exact ⟨i + 1, c0, by simpa using hg, hh⟩
  · rintro ⟨i, c0, hg, hh⟩
    cases i with
    | zero =>
      rw [List.getElem?_cons_zero] at hg
      injection hg with hg'
      subst hg'
      exact Or.inl hh
    | succ i => exact Or.inr ⟨i, c0, by simpa using hg, hh⟩

theorem hasTokAt_of_path (key : String) :
    ∀ (p : List Nat) (t c : XMLTree), getPath p t = some c → c.name = "w:t" →
      c.text = some key → hasTokAt key t = true
| [], t, c, hpc, hn, ht => by
  injection hpc with h'
  subst h'
  cases t with
  | elem n a tx cs =>
    rw [hasTokAt, Bool.or_eq_true]
    left
    simp only [XMLTree.name_elem] at hn
    simp only [XMLTree.text_elem] at ht
    simp [hn, ht]
| i :: q, t, c, hpc, hn, ht => by
  cases t with
  | elem n a tx cs =>
    rw [getPath] at hpc
    simp only [XMLTree.children_elem] at hpc
    cases hg : cs[i]? with
    | none => rw [hg] at hpc; simp at hpc
    | some c0 =>
      rw [hg] at hpc
      simp only at hpc
      rw [hasTokAt, Bool.or_eq_true]
      exact Or.inr ((hasTokAtList_iff_mem key cs).mpr
        ⟨i, c0, hg, hasTokAt_of_path key q c0 c hpc hn ht⟩)

theorem hasTokAt_path_exists (key : String) :
    ∀ t : XMLTree, hasTokAt key t = true →
      ∃ p c, getPath p t = some c ∧ c.name = "w:t" ∧ c.text = some key
| .elem n a tx cs, h => by
  rw [hasTokAt, Bool.or_eq_true] at h
  rcases h with h1 | h2
  · simp only [Bool.and_eq_true, decide_eq_true_eq] at h1
    exact ⟨[], .elem n a tx cs, rfl, by simp [h1.1], by simp [h1.2]⟩
  · obtain ⟨i, c0, hg, hh⟩ := (hasTokAtList_iff_mem key cs).mp h2
    obtain ⟨p, c, hpc, hn, ht⟩ := hasTokAt_path_exists key c0 hh
    refine ⟨i :: p, c, ?_, hn, ht⟩
    rw [getPath]
    simp only [XMLTree.children_elem]
    rw [hg]
    exact hpc
termination_by t => sizeOf t
decreasing_by
  simp_wf
  have hm := List.sizeOf_lt_of_mem (List.getElem?_mem hg)
  omega

theorem hasTokenBelow_iff (key : String) (t : XMLTree) :
    hasTokenBelow key t = true ↔
      ∃ p c, p ≠ [] ∧ getPath p t = some c ∧ c.name = "w:t" ∧ c.text = some key := by
  rw [hasTokenBelow, hasTokAtList_iff_mem]
  constructor
  · rintro ⟨i, c0, hg, hh⟩
    obtain ⟨p, c, hpc, hn, ht⟩ := hasTokAt_path_exists key c0 hh
    refine ⟨i :: p, c, by simp, ?_, hn, ht⟩
    cases t with
    | elem n a tx cs =>
      rw [getPath]
      simp only [XMLTree.children_elem] at hg ⊢
      rw [hg]
      exact hpc
  · rintro ⟨p, c, hp, hpc, hn, ht⟩
    cases p with
    | nil => exact absurd rfl hp
    | cons i q =>
      cases t with
      | elem n a tx cs =>
        rw [getPath] at hpc
        simp only [XMLTree.children_elem] at hpc
        cases hg : cs[i]? with
        | none => rw [hg] at hpc; simp at hpc
        | some c0 =>
          rw [hg] at hpc
          simp only at hpc
          exact ⟨i, c0, by simpa using hg, hasTokAt_of_path key q c0 c hpc hn ht⟩

/-- Claim C7: token substitution visits every strict descendant of the
subtree and replaces the text of exactly those text-bearing leaf nodes
(`w:t` elements, the text-bearing leaves of WordprocessingML) whose
whole text equals the token (case-sensitive, no substring match),
leaving the name, attributes and position of every node intact; a
subtree with no occurrence of the token is returned unchanged, without
error, and the occurrence test used here provably coincides with the
existence of a matching descendant. -/
theorem C7_token_substitution (key val : String) (t : XMLTree) :
    (hasTokenBelow key t = false → replaceTokens key val t = t) ∧
    (hasTokenBelow key t = true ↔
      ∃ p c, p ≠ [] ∧ getPath p t = some c ∧ c.name = "w:t" ∧ c.text = some key) ∧
    (∀ p c, p ≠ [] → getPath p t = some c →
      ∃ c', getPath p (replaceTokens key val t) = some c' ∧ c'.name = c.name ∧
        c'.attrs = c.attrs ∧
        c'.text = (if c.name = "w:t" ∧ c.text = some key then some val else c.text)) := by
  refine ⟨replaceTokens_id key val t, hasTokenBelow_iff key t, ?_⟩
  intro p c hp hpc
  cases p with
  | nil => exact absurd rfl hp
  | cons i q =>
    refine ⟨replaceAt key val c, ?_, name_replaceAt key val c, attrs_replaceAt key val c,
      text_replaceAt key val c⟩
    rw [getPath_cons_replaceTokens, hpc]
    rfl

/-- Witness for C7: in the sample block the header token leaf at path
`[0, 0]` is replaced by the value. -/
theorem C7_witness :
    ∃ c', getPath [0, 0] (replaceTokens "\x7b\x7bHEADER\x7d\x7d" "A" sampleBlock) = some c' ∧
      c'.name = (XMLTree.elem "w:t" [] (some "\x7b\x7bHEADER\x7d\x7d") []).name ∧
      c'.attrs = (XMLTree.elem "w:t" [] (some "\x7b\x7bHEADER\x7d\x7d") []).attrs ∧
      c'.text = (if (XMLTree.elem "w:t" [] (some "\x7b\x7bHEADER\x7d\x7d") []).name = "w:t" ∧
          (XMLTree.elem "w:t" [] (some "\x7b\x7bHEADER\x7d\x7d") []).text =
            some "\x7b\x7bHEADER\x7d\x7d" then some "A"
        else (XMLTree.elem "w:t" [] (some "\x7b\x7bHEADER\x7d\x7d") []).text) :=
  (C7_token_substitution "\x7b\x7bHEADER\x7d\x7d" "A" sampleBlock).2.2 [0, 0]
    (.elem "w:t" [] (some "\x7b\x7bHEADER\x7d\x7d") []) (List.cons_ne_nil 0 [0]) rfl

/-- Claim C10: token substitution preserves the shape of the tree (a
node exists at a path in the result iff one exists in the input), every
node keeps its name, its attributes and its number of children, and the
text of every node other than a strict-descendant `w:t` element whose
text equals the token is unchanged. -/
theorem C10_substitution_frame (key val : String) (t : XMLTree) :
    (∀ p, (getPath p (replaceTokens key val t)).isSome = (getPath p t).isSome) ∧
    (∀ p c, getPath p t = some c →
      ∃ c', getPath p (replaceTokens key val t) = some c' ∧ c'.name = c.name ∧
        c'.attrs = c.attrs ∧ c'.children.length = c.children.length ∧
        ((p ≠ [] ∧ c.name = "w:t" ∧ c.text = some key) ∨ c'.text = c.text)) := by
  constructor
  · intro p
    cases p with
    | nil => rfl
    | cons i q =>
      rw [getPath_cons_replaceTokens]
      cases getPath (i :: q) t <;> rfl
  · intro p c hpc
    cases p with
    | nil =>
      injection hpc with h'
      subst h'
      refine ⟨replaceTokens key val t, rfl, by cases t; rfl, by cases t; rfl, ?_,
        Or.inr (by cases t; rfl)⟩
      rw [children_replaceTokens, List.length_map]
    | cons i q =>
      refine ⟨replaceAt key val c, ?_, name_replaceAt key val c, attrs_replaceAt key val c,
        ?_, ?_⟩
      · rw [getPath_cons_replaceTokens, hpc]
        rfl
      · rw [children_replaceAt, List.length_map]
      · by_cases hm : c.name = "w:t" ∧ c.text = some key
        · exact Or.inl ⟨by simp, hm.1, hm.2⟩
        · exact Or.inr (by rw [text_replaceAt, if_neg hm])

/-- Witness for C10: the drawing run at path `[2]` of the sample block
keeps name, attributes, children count and text under substitution. -/
theorem C10_witness :
    ∃ c', getPath [2] (replaceTokens "\x7b\x7bDESCRIPTION\x7d\x7d" "d1" sampleBlock) = some c' ∧
      c'.name = (XMLTree.elem "w:r" [] none
        [.elem "w:drawing" [] none [.elem "a:blip" [("r:embed", "rId5")] none []]]).name ∧
      c'.attrs = (XMLTree.elem "w:r" [] none
        [.elem "w:drawing" [] none [.elem "a:blip" [("r:embed", "rId5")] none []]]).attrs ∧
      c'.children.length = (XMLTree.elem "w:r" [] none
        [.elem "w:drawing" [] none [.elem "a:blip" [("r:embed", "rId5")] none []]]).children.length ∧
      ((([2] : List Nat) ≠ [] ∧ (XMLTree.elem "w:r" [] none
          [.elem "w:drawing" [] none [.elem "a:blip" [("r:embed", "rId5")] none []]]).name = "w:t" ∧
        (XMLTree.elem "w:r" [] none
          [.elem "w:drawing" [] none [.elem "a:blip" [("r:embed", "rId5")] none []]]).text =
          some "\x7b\x7bDESCRIPTION\x7d\x7d") ∨
        c'.text = (XMLTree.elem "w:r" [] none
          [.elem "w:drawing" [] none [.elem "a:blip" [("r:embed", "rId5")] none []]]).text) :=
  (C10_substitution_frame "\x7b\x7bDESCRIPTION\x7d\x7d" "d1" sampleBlock).2 [2]
    (.elem "w:r" [] none
      [.elem "w:drawing" [] none [.elem "a:blip" [("r:embed", "rId5")] none []]]) rfl

end DocxReport
